import Mathlib

/-!
Shallow embedding of the Messer session core (`src/messer.js`): the thread
cache (`cacheThread`), the name resolver (`getThreadByName`), the id
fetch-or-cache operation (`getThreadById`), the unread-counter reset
(`clear`) and the command dispatcher (`processCommand`).

JavaScript objects used as string-keyed dictionaries are modelled as
association lists with JS-object update semantics: assigning to an existing
key updates it in place, assigning to a fresh key appends it (this preserves
the `Object.keys` iteration order that `getThreadByName` relies on).
JavaScript string truthiness (`undefined`/`""` are falsy) is modelled by
`truthy` on `Option String`.  The callback-style backend API is modelled as
a function `getThreadInfo : String → Except String Thread`; each operation
returns, besides its result, the updated session state and the number of
backend `getThreadInfo` calls it performed.
-/

namespace Messer

/-- JS string truthiness for an optional string field: `undefined` and `""`
are falsy, every other string is truthy. -/
def truthy : Option String → Bool
  | none => false
  | some s => s != ""

/-- ASCII whitespace, as trimmed by JS `String.prototype.trim`. -/
def isJsWhitespace (c : Char) : Bool :=
  c = ' ' || c = '\t' || c = '\n' || c = '\r'

/-- JS `String.prototype.trim`: drop whitespace from both ends. -/
def jsTrim (s : String) : String :=
  String.mk (((s.data.dropWhile isJsWhitespace).reverse.dropWhile
    isJsWhitespace).reverse)

/-- JS `String.prototype.toLowerCase` (ASCII range). -/
def jsToLowerCase (s : String) : String :=
  String.mk (s.data.map Char.toLower)

/-- JS `String.prototype.startsWith`. -/
def jsStartsWith (s pre : String) : Bool :=
  pre.data.isPrefixOf s.data

/-- Association-list lookup, mirroring `obj[key]` (returns `none` for a
missing key, i.e. `undefined`). -/
def assocGet {α : Type} : List (String × α) → String → Option α
  | [], _ => none
  | (k', v) :: rest, k => if k' = k then some v else assocGet rest k

/-- Association-list update, mirroring `obj[key] = v` on a JS object:
an existing key keeps its position and gets the new value, a fresh key is
appended at the end. -/
def assocSet {α : Type} : List (String × α) → String → α → List (String × α)
  | [], k, v => [(k, v)]
  | (k', v') :: rest, k, v =>
    if k' = k then (k, v) :: rest else (k', v') :: assocSet rest k v

/-- The cached projection of a thread, exactly the fields `cacheThread`
keeps: `name`, `threadID`, `color`, `lastMessageTimestamp`, `unreadCount`.
Optional fields model JS `undefined`. -/
structure Thread where
  name : Option String
  threadID : String
  color : Option String
  lastMessageTimestamp : Option String
  unreadCount : Option Nat
deriving DecidableEq

/-- A friend record from the backend social graph (`messen.user.friends`). -/
structure Friend where
  userID : String
  fullName : String
deriving DecidableEq

/-- The external backend collaborator: the `getThreadInfo` call (as a pure
result-or-error function) and the logged-in `user` record (`id`, `name`,
`friends`). -/
structure Backend where
  getThreadInfo : String → Except String Thread
  userId : String
  userName : String
  friends : List Friend

/-- The failure values the session core can produce:
`threadNotFound` is `Error("No threadID could be found.")`,
`friendNotFound` is `Error("Friend could not be found for thread")`,
`backendError` wraps an error surfaced by the backend callback, and
`invalidCommand` is `Error("Invalid command - check your syntax")`. -/
inductive MesserError where
  | threadNotFound
  | friendNotFound
  | backendError (msg : String)
  | invalidCommand
deriving DecidableEq

/-- The mutable session state owned by the `Messer` constructor:
`threadCache` (cached by id), `threadNameToIdMap` (name → id),
`lastThread` and `unreadMessagesCount`. -/
structure MesserState where
  threadCache : List (String × Thread)
  threadNameToIdMap : List (String × String)
  lastThread : Option String
  unreadMessagesCount : Nat
deriving DecidableEq

/-- The freshly constructed session state: empty caches, no last thread,
zero unread messages. -/
def MesserState.init : MesserState :=
  { threadCache := [], threadNameToIdMap := [], lastThread := none,
    unreadMessagesCount := 0 }

/-- `Messer.prototype.cacheThread`: store the projected thread under its
`threadID`; if its `name` is truthy, also write the name → id index entry. -/
def cacheThread (s : MesserState) (thread : Thread) : MesserState :=
  let entry : Thread :=
    { name := thread.name
      threadID := thread.threadID
      color := thread.color
      lastMessageTimestamp := thread.lastMessageTimestamp
      unreadCount := thread.unreadCount }
  let s1 := { s with threadCache := assocSet s.threadCache thread.threadID entry }
  if truthy thread.name then
    { s1 with threadNameToIdMap :=
        assocSet s1.threadNameToIdMap (thread.name.getD "") thread.threadID }
  else s1

theorem assocGet_assocSet_self {α : Type} (m : List (String × α)) (k : String) (v : α) :
    assocGet (assocSet m k v) k = some v := by
  induction m with
  | nil => simp [assocSet, assocGet]
  | cons p rest ih =>
    obtain ⟨k', v'⟩ := p
    by_cases h : k' = k
    · simp [assocSet, assocGet, h]
    · simp [assocSet, assocGet, h, ih]

theorem assocGet_assocSet_ne {α : Type} (m : List (String × α)) (k k' : String) (v : α)
    (h : k' ≠ k) : assocGet (assocSet m k v) k' = assocGet m k' := by
  induction m with
  | nil => simp [assocSet, assocGet, Ne.symm h]
  | cons p rest ih =>
    obtain ⟨k0, v0⟩ := p
    by_cases h0 : k0 = k
    · simp [assocSet, assocGet, h0, Ne.symm h]
    · simp [assocSet, assocGet, h0, ih]

/-- `Messer.prototype.getThreadById(threadID, requireName)`: cache hit
returns the cached thread immediately; otherwise the backend is queried,
the thread's name is enriched from the session user or the friends
directory when `requireName` demands it, and the result is cached.
Returns the result, the updated state, and the number of backend
`getThreadInfo` calls performed. -/
def getThreadById (env : Backend) (s : MesserState) (threadID : String)
    (requireName : Bool) :
    Except MesserError Thread × MesserState × Nat :=
  match assocGet s.threadCache threadID with
  | some thread => (.ok thread, s, 0)
  | none =>
    match env.getThreadInfo threadID with
    | .error e => (.error (.backendError e), s, 1)
    | .ok data =>
      if !truthy data.name && requireName then
        if threadID = env.userId then
          let thread : Thread := { data with name := some env.userName }
          (.ok thread, cacheThread s thread, 1)
        else
          match env.friends.find? (fun user => user.userID = threadID) with
          | none => (.error .friendNotFound, s, 1)
          | some fr =>
            let thread : Thread := { data with name := some fr.fullName }
            (.ok thread, cacheThread s thread, 1)
      else
        (.ok data, cacheThread s data, 1)

/-- `Messer.prototype.getThreadByName(threadName)`: find the first cached
name with the given case-insensitive prefix; if that yields no (truthy)
id, fall back to the friends directory and synthesize a thread from the
first friend whose full name has the prefix; otherwise fetch by id and, if
the fetched thread has no truthy name, stamp it with the typed input. -/
def getThreadByName (env : Backend) (s : MesserState) (threadName : String) :
    Except MesserError Thread × MesserState × Nat :=
  let fullThreadName :=
    ((s.threadNameToIdMap.find?
        (fun p => jsStartsWith (jsToLowerCase p.1)
          (jsToLowerCase threadName))).map (·.1))
  let threadID := fullThreadName.bind (fun n => assocGet s.threadNameToIdMap n)
  if !truthy threadID then
    match env.friends.find?
        (fun n => jsStartsWith (jsToLowerCase n.fullName)
          (jsToLowerCase threadName)) with
    | none => (.error .threadNotFound, s, 0)
    | some friend =>
      (.ok { name := some friend.fullName, threadID := friend.userID,
             color := none, lastMessageTimestamp := none, unreadCount := none },
       s, 0)
  else
    match getThreadById env s (threadID.getD "") false with
    | (.error e, s1, n) => (.error e, s1, n)
    | (.ok thread, s1, n) =>
      if truthy thread.name then (.ok thread, s1, n)
      else (.ok { thread with name := some threadName }, s1, n)

/-- `Messer.prototype.clear`: reset the unread-message counter to zero;
an early return makes it a strict no-op when the counter is already zero. -/
def clear (s : MesserState) : MesserState :=
  if s.unreadMessagesCount = 0 then s
  else { s with unreadMessagesCount := 0 }

/-- Split a character list on every space, mirroring JS
`String.prototype.split(" ")` (adjacent separators produce empty chunks,
the empty string yields one empty chunk). -/
def jsSplitList : List Char → List (List Char)
  | [] => [[]]
  | c :: cs =>
    if c = ' ' then [] :: jsSplitList cs
    else
      match jsSplitList cs with
      | [] => [[c]]
      | h :: t => (c :: h) :: t

/-- `localCommand.split(" ")` as a list of strings. -/
def jsSplitSpace (s : String) : List String :=
  (jsSplitList s.data).map String.mk

/-- JS `Array.prototype.join(" ")`: interleave the chunks with single
spaces. -/
def jsJoinSpace : List String → String
  | [] => ""
  | [x] => x
  | x :: y :: rest => x ++ " " ++ jsJoinSpace (y :: rest)

/-- JS `String.prototype.replace("\n", "")` with a string pattern replaces
only the first occurrence; here specialised to removing the first newline
character. -/
def removeFirstChar : List Char → List Char
  | [] => []
  | c :: cs => if c = '\n' then cs else c :: removeFirstChar cs

/-- `localCommand.replace("\n", "")`. -/
def removeFirstNewline (s : String) : String :=
  String.mk (removeFirstChar s.data)

/-- The observable outcome of one `processCommand` dispatch: trivial
success on whitespace-only input, rejection with `invalidCommand` when no
handler resolves, or invocation of the registry handler registered under
`verb` with the (possibly rewritten) command line. -/
inductive Dispatch where
  | noop
  | invalid
  | invoke (verb : String) (line : String)
deriving DecidableEq

/-- `Messer.prototype.processCommand(rawCommand)`.  The command registry
(`getCommandHandler`) is abstracted by the set of verbs it defines, and
the lock module (`util/lock`) by its pinned target (`none` when
unlocked).  Returns the dispatch outcome together with the updated
session state. -/
def processCommand (registry : String → Bool) (lock : Option String)
    (s : MesserState) (rawCommand : String) : Dispatch × MesserState :=
  let s := clear s
  let localCommand := rawCommand
  if (jsTrim localCommand).length = 0 then (.noop, s)
  else
    let args := jsSplitSpace (removeFirstNewline localCommand)
    match lock with
    | some target =>
      if jsTrim localCommand = "unlock" then
        if registry "unlock" then (.invoke "unlock" localCommand, s)
        else (.invalid, s)
      else
        let rewritten := "m " ++ "\"" ++ target ++ "\" " ++ jsJoinSpace args
        if registry "m" then (.invoke "m" rewritten, s) else (.invalid, s)
    | none =>
      if registry (args.headD "") then (.invoke (args.headD "") localCommand, s)
      else (.invalid, s)

theorem jsSplitList_ne_nil (l : List Char) : jsSplitList l ≠ [] := by
  cases l with
  | nil => simp [jsSplitList]
  | cons c cs =>
    by_cases h : c = ' '
    · simp [jsSplitList, h]
    · simp only [jsSplitList, h, if_false]
      cases jsSplitList cs <;> simp

/-- Character-list version of join-with-spaces, used to state the
split/join round trip. -/
def joinSpaces : List (List Char) → List Char
  | [] => []
  | [x] => x
  | x :: y :: rest => x ++ ' ' :: joinSpaces (y :: rest)

theorem joinSpaces_jsSplitList (l : List Char) :
    joinSpaces (jsSplitList l) = l := by
  induction l with
  | nil => simp [jsSplitList, joinSpaces]
  | cons c cs ih =>
    by_cases h : c = ' '
    · subst h
      rcases hs : jsSplitList cs with _ | ⟨h1, t1⟩
      · exact absurd hs (jsSplitList_ne_nil cs)
      · rw [hs] at ih
        simp only [jsSplitList, if_pos rfl, hs, joinSpaces, ih,
          List.nil_append]
    · rcases hs : jsSplitList cs with _ | ⟨h1, t1⟩
      · exact absurd hs (jsSplitList_ne_nil cs)
      · rw [hs] at ih
        cases t1 with
        | nil => simp_all [jsSplitList, joinSpaces, hs]
        | cons y rest => simp_all [jsSplitList, joinSpaces, hs]

theorem jsJoinSpace_map_mk (l : List (List Char)) :
    jsJoinSpace (l.map String.mk) = String.mk (joinSpaces l) := by
  induction l with
  | nil => rfl
  | cons x tail ih =>
    cases tail with
    | nil => rfl
    | cons y rest =>
      simp only [List.map_cons] at ih ⊢
      rw [jsJoinSpace, ih]
      have hsp : (" " : String).data = [' '] := rfl
      apply String.ext
      simp [String.data_append, joinSpaces, hsp]

theorem jsJoinSpace_jsSplitSpace (s : String) :
    jsJoinSpace (jsSplitSpace s) = s := by
  rw [jsSplitSpace, jsJoinSpace_map_mk, joinSpaces_jsSplitList]

/-! Helper lemmas about the session operations, shared by the claim
theorems below. -/

theorem cacheThread_get_self (s : MesserState) (t : Thread) :
    assocGet (cacheThread s t).threadCache t.threadID = some t := by
  unfold cacheThread
  by_cases h : truthy t.name = true
  · simp only [h, if_true]
    exact assocGet_assocSet_self _ _ _
  · simp only [h, if_false, Bool.false_eq_true]
    exact assocGet_assocSet_self _ _ _

theorem cacheThread_get_ne_id (s : MesserState) (t : Thread) (id : String)
    (h : id ≠ t.threadID) :
    assocGet (cacheThread s t).threadCache id = assocGet s.threadCache id := by
  unfold cacheThread
  by_cases ht : truthy t.name = true
  · simp only [ht, if_true]
    exact assocGet_assocSet_ne _ _ _ _ h
  · simp only [ht, if_false, Bool.false_eq_true]
    exact assocGet_assocSet_ne _ _ _ _ h

theorem cacheThread_name_index (s : MesserState) (t : Thread) (nm : String)
    (hname : t.name = some nm) (hne : nm ≠ "") :
    assocGet (cacheThread s t).threadNameToIdMap nm = some t.threadID := by
  have ht : truthy (some nm) = true := by simp [truthy, hne]
  unfold cacheThread
  simp only [hname, ht, if_true, Option.getD_some]
  exact assocGet_assocSet_self _ _ _

theorem getThreadById_hit (env : Backend) (s : MesserState) (id : String)
    (rn : Bool) (t : Thread) (h : assocGet s.threadCache id = some t) :
    getThreadById env s id rn = (.ok t, s, 0) := by
  unfold getThreadById
  rw [h]

theorem clear_unread (s : MesserState) :
    (clear s).unreadMessagesCount = 0 := by
  unfold clear
  by_cases h : s.unreadMessagesCount = 0
  · simp [h]
  · simp [h]

theorem processCommand_state (registry : String → Bool) (lock : Option String)
    (s : MesserState) (raw : String) :
    (processCommand registry lock s raw).2 = clear s := by
  unfold processCommand
  split
  all_goals dsimp only
  all_goals repeat' split
  all_goals rfl

/-! Concrete fixtures used by witnesses and counterexamples. -/

/-- A command registry defining exactly the `m` and `unlock` handlers. -/
def sampleRegistry : String → Bool := fun v => v == "m" || v == "unlock"

/-- A concrete thread named `Alice` with id `1`. -/
def threadAlice : Thread :=
  { name := some "Alice", threadID := "1", color := none,
    lastMessageTimestamp := none, unreadCount := some 0 }

/-- A concrete backend: thread `42` is known (a group named `Gang`),
everything else errors; one friend `Bob Smith` with user id `42`. -/
def sampleBackend : Backend :=
  { getThreadInfo := fun i =>
      if i = "42" then
        .ok { name := some "Gang", threadID := "42", color := none,
              lastMessageTimestamp := none, unreadCount := some 0 }
      else .error "thread info unavailable"
    userId := "me"
    userName := "Me"
    friends := [{ userID := "42", fullName := "Bob Smith" }] }

/-- A session state whose cache already holds `threadAlice`. -/
def cachedState : MesserState := cacheThread MesserState.init threadAlice

/-- A fresh session state except for five unread messages. -/
def unreadState : MesserState :=
  { threadCache := [], threadNameToIdMap := [], lastThread := none,
    unreadMessagesCount := 5 }

/-! Claim theorems. -/

/-- Claim C3: for every thread `t` with non-empty `t.name`, after
`cacheThread t` the name-to-id index maps `t.name` to `t.threadID` and the
cache maps `t.threadID` to a record equal to `t`. -/
theorem cacheThread_put_get (s : MesserState) (t : Thread) (nm : String)
    (hname : t.name = some nm) (hne : nm ≠ "") :
    assocGet (cacheThread s t).threadNameToIdMap nm = some t.threadID ∧
    assocGet (cacheThread s t).threadCache t.threadID = some t :=
  ⟨cacheThread_name_index s t nm hname hne, cacheThread_get_self s t⟩

theorem cacheThread_put_get_witness :
    threadAlice.name = some "Alice" ∧ ("Alice" : String) ≠ "" ∧
    (assocGet (cacheThread MesserState.init threadAlice).threadNameToIdMap
        "Alice" = some threadAlice.threadID ∧
      assocGet (cacheThread MesserState.init threadAlice).threadCache
        threadAlice.threadID = some threadAlice) :=
  ⟨rfl, by decide,
    cacheThread_put_get MesserState.init threadAlice "Alice" rfl (by decide)⟩

/-- Claim C5: with a pinned lock target, a line whose trimmed form is
exactly `unlock` dispatches to the registry's `unlock` handler with the
original (unrewritten) line; the pinned `m`-rewrite is not applied. -/
theorem processCommand_unlock_escape (registry : String → Bool)
    (target : String) (s : MesserState) (raw : String)
    (hreg : registry "unlock" = true) (htrim : jsTrim raw = "unlock") :
    (processCommand registry (some target) s raw).1 = .invoke "unlock" raw := by
  have hlen : ¬ (("unlock" : String).length = 0) := by decide
  unfold processCommand
  simp only [htrim, hlen, if_false, hreg, if_true]

theorem processCommand_unlock_escape_witness :
    sampleRegistry "unlock" = true ∧ jsTrim "unlock" = "unlock" ∧
    (processCommand sampleRegistry (some "Alice") MesserState.init
        "unlock").1 = .invoke "unlock" "unlock" :=
  ⟨rfl, rfl,
    processCommand_unlock_escape sampleRegistry "Alice" MesserState.init
      "unlock" rfl rfl⟩

/-- Claim C7: when the typed name is a case-insensitive prefix of no
cached thread name and of no friend's full name, `getThreadByName` fails
with the thread-not-found error and leaves the state untouched. -/
theorem getThreadByName_thread_not_found (env : Backend) (s : MesserState)
    (nm : String)
    (hc : s.threadNameToIdMap.find?
      (fun p => jsStartsWith (jsToLowerCase p.1) (jsToLowerCase nm)) = none)
    (hf : env.friends.find?
      (fun n => jsStartsWith (jsToLowerCase n.fullName) (jsToLowerCase nm))
        = none) :
    getThreadByName env s nm = (.error .threadNotFound, s, 0) := by
  unfold getThreadByName
  simp [hc, hf, truthy]

theorem getThreadByName_thread_not_found_witness :
    MesserState.init.threadNameToIdMap.find?
      (fun p => jsStartsWith (jsToLowerCase p.1) (jsToLowerCase "zeb"))
        = none ∧
    sampleBackend.friends.find?
      (fun n => jsStartsWith (jsToLowerCase n.fullName) (jsToLowerCase "zeb"))
        = none ∧
    getThreadByName sampleBackend MesserState.init "zeb"
      = (.error .threadNotFound, MesserState.init, 0) :=
  ⟨rfl, rfl,
    getThreadByName_thread_not_found sampleBackend MesserState.init "zeb"
      rfl rfl⟩

/-- Claim C6: when no cached thread name has the typed name as a
case-insensitive prefix, `getThreadByName` falls back to the friends
directory: the first friend whose full name has the prefix yields a
synthesized thread with the friend's user id and full name, and the
session state (in particular `ThreadCache`) is not modified. -/
theorem getThreadByName_friend_fallback (env : Backend) (s : MesserState)
    (nm : String) (fr : Friend)
    (hc : s.threadNameToIdMap.find?
      (fun p => jsStartsWith (jsToLowerCase p.1) (jsToLowerCase nm)) = none)
    (hf : env.friends.find?
      (fun n => jsStartsWith (jsToLowerCase n.fullName) (jsToLowerCase nm))
        = some fr) :
    getThreadByName env s nm =
      (.ok { name := some fr.fullName, threadID := fr.userID, color := none,
             lastMessageTimestamp := none, unreadCount := none }, s, 0) := by
  unfold getThreadByName
  simp [hc, hf, truthy]

theorem getThreadByName_friend_fallback_witness :
    MesserState.init.threadNameToIdMap.find?
      (fun p => jsStartsWith (jsToLowerCase p.1) (jsToLowerCase "bob"))
        = none ∧
    sampleBackend.friends.find?
      (fun n => jsStartsWith (jsToLowerCase n.fullName) (jsToLowerCase "bob"))
        = some { userID := "42", fullName := "Bob Smith" } ∧
    getThreadByName sampleBackend MesserState.init "bob"
      = (.ok { name := some "Bob Smith", threadID := "42", color := none,
               lastMessageTimestamp := none, unreadCount := none },
         MesserState.init, 0) :=
  ⟨rfl, rfl,
    getThreadByName_friend_fallback sampleBackend MesserState.init "bob"
      { userID := "42", fullName := "Bob Smith" } rfl rfl⟩

/-- Claim C8: `processCommand` resets the unread-message counter to zero
as its first step, so after any (in particular any non-empty) call the
counter is zero regardless of its prior value; the reset (`clear`) is a
strict no-op when the counter is already zero. -/
theorem processCommand_resets_unread (registry : String → Bool)
    (lock : Option String) (s : MesserState) (raw : String)
    (_h : (jsTrim raw).length ≠ 0) :
    (processCommand registry lock s raw).2.unreadMessagesCount = 0 ∧
    (s.unreadMessagesCount = 0 → clear s = s) := by
  constructor
  · rw [processCommand_state]
    exact clear_unread s
  · intro h0
    simp [clear, h0]

theorem processCommand_resets_unread_witness :
    (jsTrim "m hi").length ≠ 0 ∧
    ((processCommand sampleRegistry none unreadState
        "m hi").2.unreadMessagesCount = 0 ∧
      (unreadState.unreadMessagesCount = 0 → clear unreadState = unreadState)) :=
  ⟨by decide,
    processCommand_resets_unread sampleRegistry none unreadState "m hi"
      (by decide)⟩

/-- Claim C9: a cache hit in `getThreadById` returns the cached thread
unchanged — same result for both values of `requireName` — touching
neither the state nor the backend, so no name enrichment (and hence no
friend-not-found failure) can occur on the hit path. -/
theorem getThreadById_cache_hit (env : Backend) (s : MesserState)
    (id : String) (t : Thread) (h : assocGet s.threadCache id = some t) :
    ∀ rn : Bool, getThreadById env s id rn = (.ok t, s, 0) :=
  fun rn => getThreadById_hit env s id rn t h

/-- Claim C10: `getThreadById` is atomic on failure — whenever its result
is an error (backend failure or failed name enrichment), the session
state, and with it both `ThreadCache` and the name-to-id index, is
returned unchanged. -/
theorem getThreadById_failure_atomic (env : Backend) (s : MesserState)
    (id : String) (rn : Bool) (e : MesserError)
    (h : (getThreadById env s id rn).1 = .error e) :
    (getThreadById env s id rn).2.1 = s := by
  unfold getThreadById at h ⊢
  rcases hc : assocGet s.threadCache id with _ | t
  · simp only [hc] at h ⊢
    rcases hb : env.getThreadInfo id with msg | data
    · simp only [hb]
    · simp only [hb] at h ⊢
      by_cases hn : (!truthy data.name && rn) = true
      · simp only [hn, if_true] at h ⊢
        by_cases hu : id = env.userId
        · simp only [if_pos hu] at h
          exact Except.noConfusion h
        · simp only [if_neg hu] at h ⊢
          rcases hf : env.friends.find? (fun user => user.userID = id)
            with _ | fr
          · simp only [hf]
          · simp only [hf] at h
            exact Except.noConfusion h
      · simp only [hn, if_false, Bool.false_eq_true] at h ⊢
        exact Except.noConfusion h
  · simp only [hc] at h
    exact Except.noConfusion h

theorem getThreadById_failure_atomic_witness :
    (getThreadById sampleBackend MesserState.init "7" false).1
      = .error (.backendError "thread info unavailable") ∧
    (getThreadById sampleBackend MesserState.init "7" false).2.1
      = MesserState.init :=
  ⟨rfl,
    getThreadById_failure_atomic sampleBackend MesserState.init "7" false
      (.backendError "thread info unavailable") rfl⟩

theorem getThreadById_miss_success (env : Backend) (s : MesserState)
    (id : String) (rn : Bool) (t : Thread)
    (hmiss : assocGet s.threadCache id = none)
    (hok : (getThreadById env s id rn).1 = .ok t) :
    getThreadById env s id rn = (.ok t, cacheThread s t, 1) := by
  unfold getThreadById at hok ⊢
  simp only [hmiss] at hok ⊢
  rcases hb : env.getThreadInfo id with msg | data
  · simp only [hb] at hok
    exact Except.noConfusion hok
  · simp only [hb] at hok ⊢
    by_cases hn : (!truthy data.name && rn) = true
    · simp only [hn, if_true] at hok ⊢
      by_cases hu : id = env.userId
      · simp only [if_pos hu] at hok ⊢
        injection hok with h1
        subst h1
        rfl
      · simp only [if_neg hu] at hok ⊢
        rcases hf : env.friends.find? (fun user => user.userID = id)
          with _ | fr
        · simp only [hf] at hok
          exact Except.noConfusion hok
        · simp only [hf] at hok ⊢
          injection hok with h1
          subst h1
          rfl
    · simp only [hn, if_false, Bool.false_eq_true] at hok ⊢
      injection hok with h1
      subst h1
      rfl

theorem getThreadById_cache_hit_witness :
    assocGet cachedState.threadCache "1" = some threadAlice ∧
    getThreadById sampleBackend cachedState "1" true
      = (.ok threadAlice, cachedState, 0) :=
  ⟨rfl, getThreadById_cache_hit sampleBackend cachedState "1" threadAlice
    rfl true⟩

/-- The thread that `sampleBackend` serves for id `42`. -/
def threadGang : Thread :=
  { name := some "Gang", threadID := "42", color := none,
    lastMessageTimestamp := none, unreadCount := some 0 }

/-- A second thread that shares `threadAlice`'s name but has id `2`. -/
def threadAliceDup : Thread :=
  { name := some "Alice", threadID := "2", color := none,
    lastMessageTimestamp := none, unreadCount := some 0 }

/-- Claim C2: when `getThreadById` misses the cache and succeeds, the
returned thread is cached afterwards, so the first call makes exactly one
backend call and a repeated call is a pure cache hit making none. -/
theorem getThreadById_success_caches (env : Backend) (s : MesserState)
    (id : String) (rn rn2 : Bool) (t : Thread)
    (hmiss : assocGet s.threadCache id = none)
    (hid : t.threadID = id)
    (hok : (getThreadById env s id rn).1 = .ok t) :
    (getThreadById env s id rn).2.2 = 1 ∧
    assocGet ((getThreadById env s id rn).2.1).threadCache id = some t ∧
    getThreadById env ((getThreadById env s id rn).2.1) id rn2
      = (.ok t, (getThreadById env s id rn).2.1, 0) := by
  have hfull := getThreadById_miss_success env s id rn t hmiss hok
  rw [hfull]
  have hmem : assocGet (cacheThread s t).threadCache id = some t := by
    rw [← hid]
    exact cacheThread_get_self s t
  exact ⟨rfl, hmem, getThreadById_hit env (cacheThread s t) id rn2 t hmem⟩

theorem getThreadById_success_caches_witness :
    assocGet MesserState.init.threadCache "42" = none ∧
    threadGang.threadID = "42" ∧
    (getThreadById sampleBackend MesserState.init "42" false).1
      = .ok threadGang ∧
    ((getThreadById sampleBackend MesserState.init "42" false).2.2 = 1 ∧
      assocGet ((getThreadById sampleBackend MesserState.init "42"
          false).2.1).threadCache "42" = some threadGang ∧
      getThreadById sampleBackend
          ((getThreadById sampleBackend MesserState.init "42" false).2.1)
          "42" true
        = (.ok threadGang,
           (getThreadById sampleBackend MesserState.init "42" false).2.1,
           0)) :=
  ⟨rfl, rfl, rfl,
    getThreadById_success_caches sampleBackend MesserState.init "42" false
      true threadGang rfl rfl rfl⟩

/-- Claim C1 counterexample: with lock target `Alice` and input line
`"hi\n"` (whose trimmed form `hi` is neither `unlock` nor empty), the `m`
handler receives `m "Alice" hi` — the first newline of the original line
has been removed, so the line the claim predicts, `m "Alice" hi\n` with
the original line appended verbatim, is not what the handler gets. -/
theorem processCommand_lock_rewrite_newline_cex :
    (processCommand sampleRegistry (some "Alice") MesserState.init
        "hi\n").1 = .invoke "m" "m \"Alice\" hi" ∧
    Dispatch.invoke "m" "m \"Alice\" hi"
      ≠ .invoke "m" ("m " ++ "\"" ++ "Alice" ++ "\" " ++ "hi\n") :=
  ⟨rfl, by decide⟩

/-- Claim C1 (amended): with a pinned lock target `T`, any input line `L`
that is not whitespace-only and does not trim to `unlock` is dispatched to
the registry's `m` handler with the line `m "T" L2`, where `L2` is `L`
with its first newline character removed (the space-split/join of the
source is the identity, so the line is otherwise appended verbatim; for a
newline-free `L`, `L2 = L`). -/
theorem processCommand_lock_rewrite (registry : String → Bool)
    (target : String) (s : MesserState) (raw : String)
    (hreg : registry "m" = true)
    (hne : jsTrim raw ≠ "unlock") (hws : (jsTrim raw).length ≠ 0) :
    (processCommand registry (some target) s raw).1
      = .invoke "m"
          ("m " ++ "\"" ++ target ++ "\" " ++ removeFirstNewline raw) := by
  unfold processCommand
  simp [hws, hne, hreg, jsJoinSpace_jsSplitSpace]

theorem processCommand_lock_rewrite_witness :
    sampleRegistry "m" = true ∧
    jsTrim "hello there" ≠ "unlock" ∧
    (jsTrim "hello there").length ≠ 0 ∧
    ("m " ++ "\"" ++ "Alice" ++ "\" " ++ removeFirstNewline "hello there")
      = "m \"Alice\" hello there" ∧
    (processCommand sampleRegistry (some "Alice") MesserState.init
        "hello there").1
      = .invoke "m"
          ("m " ++ "\"" ++ "Alice" ++ "\" "
            ++ removeFirstNewline "hello there") :=
  ⟨rfl, by decide, by decide, rfl,
    processCommand_lock_rewrite sampleRegistry "Alice" MesserState.init
      "hello there" rfl (by decide) (by decide)⟩

/-- Claim C4 counterexample: cache `threadAlice` (id `1`, name `Alice`)
and then `threadAliceDup` (id `2`, same name `Alice`).  Thread `1` is
still cached with its non-empty name `Alice`, but the name-to-id index now
maps `Alice` to `2`, not to `1` — so the claimed invariant that the index
maps the name of every cached thread to that thread's id does not hold
after every sequence of `cacheThread` calls. -/
theorem cacheThread_invariant_cex :
    assocGet (cacheThread (cacheThread MesserState.init threadAlice)
        threadAliceDup).threadCache "1" = some threadAlice ∧
    truthy threadAlice.name = true ∧
    assocGet (cacheThread (cacheThread MesserState.init threadAlice)
        threadAliceDup).threadNameToIdMap "Alice" = some "2" ∧
    assocGet (cacheThread (cacheThread MesserState.init threadAlice)
        threadAliceDup).threadNameToIdMap "Alice" ≠ some "1" :=
  ⟨rfl, rfl, rfl, by decide⟩

/-- The part of the cache invariant that does hold of every reachable
cache: every cached thread is stored under its own id. -/
def threadCacheInv (s : MesserState) : Prop :=
  ∀ id t, assocGet s.threadCache id = some t → t.threadID = id

/-- Claim C4 (amended): `cacheThread` preserves the invariant that every
cached thread is stored under its own id; the write for a given id
overwrites any earlier entry for that id (the cache reflects the latest
`put`); and when the new thread's name is non-empty the name-to-id index
maps that name to the id of this latest write — a name shared by an
earlier thread with a different id is rebound to the most recent one,
while the stale thread keeps its cache entry. -/
theorem cacheThread_invariant_amended (s : MesserState) (t : Thread)
    (h : threadCacheInv s) :
    threadCacheInv (cacheThread s t) ∧
    assocGet (cacheThread s t).threadCache t.threadID = some t ∧
    (∀ nm, t.name = some nm → nm ≠ "" →
      assocGet (cacheThread s t).threadNameToIdMap nm = some t.threadID) := by
  refine ⟨?_, cacheThread_get_self s t, ?_⟩
  · intro id u hu
    by_cases hid : id = t.threadID
    · subst hid
      rw [cacheThread_get_self s t] at hu
      injection hu with h1
      rw [← h1]
    · rw [cacheThread_get_ne_id s t id hid] at hu
      exact h id u hu
  · intro nm h1 h2
    exact cacheThread_name_index s t nm h1 h2

theorem cacheThread_invariant_amended_witness :
    threadCacheInv MesserState.init ∧
    threadCacheInv (cacheThread MesserState.init threadAlice) :=
  have h0 : threadCacheInv MesserState.init := fun id t h => by
    simp [MesserState.init, assocGet] at h
  ⟨h0, (cacheThread_invariant_amended MesserState.init threadAlice h0).1⟩

end Messer
